import Mathlib

/-!
# Verification of the email-provider core of the `awad-final-project/backend` repository

Shallow embedding of the provider-selection, local-mailbox, folder-mapping and
attachment-linkage logic of the repository.  Stateful TypeScript code (Mongoose
collections of `Email`, `Account` and `Attachment` documents) is embedded as
explicit state passing over lists of records; dates are `Nat` timestamps passed
in as an explicit `now` parameter wherever the source calls `new Date()`.

Sources embedded:
* `src/modules/email/providers/gmail/gmail-provider.service.ts`
  (`GmailProviderService` and `DatabaseProviderService`)
* `src/modules/email/email.service.ts` (`EmailService`, `EmailProviderFactory`)
* `src/modules/email/email.module.ts` (`EmailService.replyEmail`)
* `src/modules/email/common/utils/email.utils.ts`
* `src/modules/email/features/attachment/attachment.service.ts`
  (`AttachmentService.linkAttachmentsToEmail`)
* `src/libs/database/src/models/email.model.ts` (Mongoose access semantics:
  `findOne`/`find` return matches in insertion order, `updateOne`/`deleteOne`
  affect the first matching document, `save` appends a new document).
-/

set_option maxHeartbeats 1000000

namespace AwadEmail

/-! ## Data model (from `email.schema.ts` / `account.schema.ts`) -/

/-- Attachment reference embedded in a `Message`, from `IAttachmentRef` in
`email.schema.ts`. -/
structure AttachmentRef where
  attachmentId : String
  filename : String
  mimeType : String
  size : Nat
  s3Key : String
deriving DecidableEq, Repr

/-- A locally stored email document, from the `Email` schema in
`email.schema.ts`.  `sentAt`/`readAt` dates are `Nat` timestamps; the `from`
field is named `fromAddr` because `from` is reserved in Lean. -/
structure Message where
  id : String
  accountId : String
  fromAddr : String
  toAddr : String
  cc : List String
  bcc : List String
  subject : String
  body : String
  htmlBody : Option String
  preview : String
  isRead : Bool
  isStarred : Bool
  folder : String
  sentAt : Nat
  readAt : Option Nat
  messageId : Option String
  inReplyTo : Option String
  attachments : List AttachmentRef
  hasAttachments : Bool
deriving DecidableEq, Repr

/-- An account document, from the `Account` schema (the fields this core
consults: identity, unique email, and the Google OAuth credential pair). -/
structure Account where
  id : String
  email : String
  googleAccessToken : Option String
  googleRefreshToken : Option String
deriving DecidableEq, Repr

/-- An attachment document, from the `Attachment` schema: `emailId` is null
until the attachment is linked to a message. -/
structure Attachment where
  id : String
  filename : String
  mimeType : String
  size : Nat
  emailId : Option String
deriving DecidableEq, Repr

/-- The document store backing `EmailModel`, `AccountModel` and
`AttachmentModel`. -/
structure Store where
  emails : List Message
  accounts : List Account
  attachmentDocs : List Attachment
deriving DecidableEq, Repr

/-! ## Mongoose access semantics -/

/-- `updateOne(filter, patch)`: Mongo updates the first matching document. -/
def updateFirst {α : Type} (p : α → Bool) (f : α → α) : List α → List α
  | [] => []
  | x :: xs => if p x then f x :: xs else x :: updateFirst p f xs

/-- `deleteOne(filter)`: Mongo deletes the first matching document. -/
def deleteFirst {α : Type} (p : α → Bool) : List α → List α
  | [] => []
  | x :: xs => if p x then xs else x :: deleteFirst p xs

/-- `mongoose.isValidObjectId` on a string: a 24-character hex string (or any
12-character string, which Mongo can interpret as 12 raw bytes). -/
def isHexChar (c : Char) : Bool :=
  c.isDigit || ('a' ≤ c && c ≤ 'f') || ('A' ≤ c && c ≤ 'F')

/-- Well-formedness test used by the local provider before touching the store
(`isValidObjectId` from `mongoose`). -/
def isValidObjectId (s : String) : Bool :=
  (s.length == 24 && s.toList.all isHexChar) || s.length == 12

/-! ## Helper lemmas about `updateFirst` / `deleteFirst` / `List.find?` -/

theorem find?_of_filter_cons {α : Type} {p : α → Bool} {l : List α} {a : α}
    {rest : List α} (h : l.filter p = a :: rest) : l.find? p = some a := by
  induction l generalizing rest with
  | nil => simp at h
  | cons x xs ih =>
    rw [List.filter_cons] at h
    by_cases hx : p x
    · rw [if_pos hx] at h
      rw [List.find?_cons_of_pos _ hx, (List.cons_eq_cons.mp h).1]
    · rw [if_neg hx] at h
      rw [List.find?_cons_of_neg _ hx]
      exact ih h

theorem find?_eq_none_of_filter_nil {α : Type} {p : α → Bool} {l : List α}
    (h : l.filter p = []) : l.find? p = none := by
  rw [List.filter_eq_nil_iff] at h
  exact List.find?_eq_none.mpr h

theorem find?_updateFirst {α : Type} {p : α → Bool} {f : α → α} {l : List α}
    {a : α} (h : l.find? p = some a) (hf : p (f a) = true) :
    (updateFirst p f l).find? p = some (f a) := by
  induction l with
  | nil => simp at h
  | cons x xs ih =>
    by_cases hx : p x
    · rw [List.find?_cons_of_pos _ hx, Option.some_inj] at h
      subst h
      simp only [updateFirst, if_pos hx]
      rw [List.find?_cons_of_pos _ hf]
    · rw [List.find?_cons_of_neg _ hx] at h
      simp only [updateFirst, if_neg hx]
      rw [List.find?_cons_of_neg _ hx]
      exact ih h

theorem updateFirst_eq_self {α : Type} {p : α → Bool} {f : α → α} {l : List α}
    {a : α} (h : l.find? p = some a) (hf : f a = a) :
    updateFirst p f l = l := by
  induction l with
  | nil => rfl
  | cons x xs ih =>
    by_cases hx : p x
    · rw [List.find?_cons_of_pos _ hx, Option.some_inj] at h
      subst h
      simp only [updateFirst, if_pos hx, hf]
    · rw [List.find?_cons_of_neg _ hx] at h
      simp only [updateFirst, if_neg hx]
      rw [ih h]

theorem updateFirst_of_nomatch {α : Type} {p : α → Bool} {f : α → α}
    {l : List α} (h : ∀ a ∈ l, p a = false) : updateFirst p f l = l := by
  induction l with
  | nil => rfl
  | cons x xs ih =>
    have hx : ¬ p x = true := by simp [h x (by simp)]
    simp only [updateFirst, if_neg hx]
    rw [ih fun a ha => h a (by simp [ha])]

theorem filter_updateFirst_singleton {α : Type} {p : α → Bool} {f : α → α}
    {l : List α} {a : α} (h : l.filter p = [a]) (hf : p (f a) = true) :
    (updateFirst p f l).filter p = [f a] := by
  induction l with
  | nil => simp at h
  | cons x xs ih =>
    rw [List.filter_cons] at h
    by_cases hx : p x
    · rw [if_pos hx] at h
      have hxa : x = a := (List.cons_eq_cons.mp h).1
      have hxs : xs.filter p = [] := (List.cons_eq_cons.mp h).2
      subst hxa
      simp only [updateFirst, if_pos hx]
      rw [List.filter_cons, if_pos hf, hxs]
    · rw [if_neg hx] at h
      simp only [updateFirst, if_neg hx]
      rw [List.filter_cons, if_neg hx]
      exact ih h

theorem filter_deleteFirst {α : Type} {p : α → Bool} {l : List α} :
    (deleteFirst p l).filter p = (l.filter p).tail := by
  induction l with
  | nil => rfl
  | cons x xs ih =>
    by_cases hx : p x
    · simp [deleteFirst, hx, List.filter_cons]
    · simp [deleteFirst, hx, List.filter_cons, ih]

/-! ## `email.utils.ts`: pure utility functions

JS string primitives (`trim`, `toLowerCase`, `split(',')`, `substring`,
global `replace`, `join(', ')`) are embedded as executable `List Char`
recursions (the core `String` versions are `Substring`-based and do not
reduce in the kernel).  Addresses are treated as ASCII: `toLowerCase` is
modelled on the ASCII range. -/

/-- JS `String.prototype.trim`: strip whitespace from both ends. -/
def jsTrim (s : String) : String :=
  String.mk
    (((s.data.dropWhile Char.isWhitespace).reverse.dropWhile
        Char.isWhitespace).reverse)

/-- ASCII lower-casing of one character (JS `toLowerCase` on ASCII input). -/
def jsToLowerChar (c : Char) : Char :=
  if 'A' ≤ c && c ≤ 'Z' then Char.ofNat (c.toNat + 32) else c

/-- JS `String.prototype.toLowerCase` restricted to ASCII. -/
def jsToLower (s : String) : String :=
  String.mk (s.data.map jsToLowerChar)

/-- Split a character list at each comma; JS `split(',')` (so `""` yields
`[""]`). -/
def splitOnCommaAux (cur : List Char) : List Char → List (List Char)
  | [] => [cur.reverse]
  | c :: rest =>
      if c = ',' then cur.reverse :: splitOnCommaAux [] rest
      else splitOnCommaAux (c :: cur) rest

/-- JS `String.prototype.split(',')`. -/
def jsSplitOnComma (s : String) : List String :=
  (splitOnCommaAux [] s.data).map String.mk

/-- JS `String.prototype.substring(0, n)`. -/
def jsSubstringTo (s : String) (n : Nat) : String :=
  String.mk (s.data.take n)

/-- Left-to-right, non-overlapping global replacement of a non-empty literal
pattern (JS `replace(/pat/g, repl)` for a literal pattern). -/
def replaceAllChars (pat repl : List Char) : List Char → List Char
  | [] => []
  | c :: rest =>
      if h : pat ≠ [] ∧ (c :: rest).take pat.length = pat then
        repl ++ replaceAllChars pat repl ((c :: rest).drop pat.length)
      else c :: replaceAllChars pat repl rest
termination_by l => l.length
decreasing_by
  · rw [List.length_drop]
    have h1 : 0 < pat.length := List.length_pos.mpr h.1
    simp only [List.length_cons]
    omega
  · simp

/-- JS global string replacement. -/
def jsReplaceAll (s pat repl : String) : String :=
  String.mk (replaceAllChars pat.data repl.data s.data)

/-- JS `Array.prototype.join(', ')`. -/
def joinWithCommaSpace : List String → String
  | [] => ""
  | [x] => x
  | x :: xs => x ++ ", " ++ joinWithCommaSpace xs

/-- Scan for the first match of the regex `/<([^>]+)>/` over a character list
and return the captured group: the first `<` that is followed by at least one
non-`>` character and then a `>`.  Mirrors the left-to-right scan of the JS
regex engine. -/
def findAngleGroup : List Char → Option (List Char)
  | [] => none
  | c :: rest =>
      if c = '<' then
        let inner := rest.takeWhile (fun d => d ≠ '>')
        if inner.length ≥ 1 && (rest.drop inner.length).headD ' ' = '>' then
          some inner
        else
          findAngleGroup rest
      else
        findAngleGroup rest

/-- `extractEmailAddress` from `email.utils.ts` (the private copy inside
`EmailService` in `email.module.ts` is textually identical): extract the
address from `"Name <a@b.com>"`, otherwise return the trimmed input; the empty
string maps to itself (`if (!emailString) return ''`). -/
def extractEmailAddress (emailString : String) : String :=
  if emailString = "" then ""
  else
    match findAngleGroup emailString.toList with
    | some inner => jsTrim (String.mk inner)
    | none => jsTrim emailString

/-- One global-replace step of the regex `/<[^>]*>/g`: drop every maximal
`<...>` segment whose interior contains no `>`. -/
def stripHtmlTags : List Char → List Char
  | [] => []
  | c :: rest =>
      if c = '<' then
        let inner := rest.takeWhile (fun d => d ≠ '>')
        match h : rest.drop inner.length with
        | '>' :: after =>
            have : after.length < rest.length + 1 := by
              have hlen : (rest.drop inner.length).length = rest.length - inner.length :=
                List.length_drop _ _
              rw [h] at hlen
              simp at hlen
              omega
            stripHtmlTags after
        | _ => c :: stripHtmlTags rest
      else
        c :: stripHtmlTags rest
termination_by l => l.length

/-- `generatePreview` from `email.utils.ts`: strip HTML tags, decode the five
HTML entities, trim, and truncate to `maxLength` characters with an ellipsis.
The source's default `maxLength` is 150. -/
def generatePreview (body : String) (maxLength : Nat) : String :=
  if body = "" then ""
  else
    let text := String.mk (stripHtmlTags body.toList)
    let decoded :=
      jsReplaceAll
        (jsReplaceAll
          (jsReplaceAll (jsReplaceAll (jsReplaceAll text "&nbsp;" " ") "&amp;" "&")
            "&lt;" "<")
          "&gt;" ">")
        "&quot;" "\x22"
    let trimmed := jsTrim decoded
    if trimmed.length > maxLength then jsSubstringTo trimmed maxLength ++ "..."
    else trimmed

/-- `mapGmailLabelToFolder` from `email.utils.ts`: inward label-to-folder map;
`mapping[labelId] || 'inbox'` defaults every unknown label to `inbox`. -/
def mapGmailLabelToFolder (labelId : String) : String :=
  if labelId = "INBOX" then "inbox"
  else if labelId = "SENT" then "sent"
  else if labelId = "DRAFT" then "drafts"
  else if labelId = "TRASH" then "trash"
  else if labelId = "STARRED" then "starred"
  else "inbox"

/-- `mapFolderToGmailLabel` from `email.utils.ts`: outward folder-to-label map;
`mapping[folder]` is `undefined` (here `none`) for `archive` and for every
folder name not among the five keys. -/
def mapFolderToGmailLabel (folder : String) : Option String :=
  if folder = "inbox" then some "INBOX"
  else if folder = "sent" then some "SENT"
  else if folder = "drafts" then some "DRAFT"
  else if folder = "trash" then some "TRASH"
  else if folder = "starred" then some "STARRED"
  else none

/-! ## Provider selector (`EmailProviderFactory.getProvider`) and availability
(`GmailProviderService.isAvailable`, `DatabaseProviderService.isAvailable`) -/

/-- The two provider implementations behind the common interface. -/
inductive Provider
  | gmail
  | database
deriving DecidableEq, Repr

/-- `AccountModel.findOne({ _id: userId })`. -/
def accountFindById (st : Store) (userId : String) : Option Account :=
  st.accounts.find? (fun a => a.id == userId)

/-- `AccountModel.findOne({ email })`. -/
def accountFindByEmail (st : Store) (email : String) : Option Account :=
  st.accounts.find? (fun a => a.email == email)

/-- `getGmailClient` returns a client iff the account exists and
`user.googleAccessToken` is truthy (present and not the empty string);
`GmailProviderService.isAvailable(userId)` is exactly that test. -/
def gmailIsAvailable (st : Store) (userId : String) : Bool :=
  match accountFindById st userId with
  | none => false
  | some user =>
      match user.googleAccessToken with
      | none => false
      | some tok => tok ≠ ""

/-- `DatabaseProviderService.isAvailable`: the local provider is always
available. -/
def databaseIsAvailable (_userId : String) : Bool :=
  true

/-- `EmailProviderFactory.getProvider`: re-checks Gmail availability against
the store passed in at call time (no cached result exists; the function is a
pure function of the current store) and falls back to the database provider.
It is total: no error is ever raised. -/
def getProvider (st : Store) (userId : String) : Provider :=
  if gmailIsAvailable st userId then Provider.gmail else Provider.database

/-! ## Local provider (`DatabaseProviderService`) -/

/-- The `IEmailDetail` response shape produced by `getEmailById` (the fields
the local provider fills; `cc`/`bcc` are joined with `', '`). -/
structure EmailDetail where
  id : String
  fromAddr : String
  toAddr : String
  cc : String
  bcc : String
  subject : String
  body : String
  preview : String
  isRead : Bool
  isStarred : Bool
  sentAt : Nat
  readAt : Nat
  folder : String
deriving DecidableEq, Repr

/-- The detail record `DatabaseProviderService.getEmailById` returns for a
found, owned message `m` (after the read-marking side effect): `isRead` is
reported `true`, `readAt` is the stored stamp or the current time, `preview`
falls back to `generatePreview(body)` when empty. -/
def detailOf (m : Message) (now : Nat) : EmailDetail :=
  { id := m.id
    fromAddr := m.fromAddr
    toAddr := m.toAddr
    cc := joinWithCommaSpace m.cc
    bcc := joinWithCommaSpace m.bcc
    subject := m.subject
    body := m.body
    preview := if m.preview = "" then generatePreview m.body 150 else m.preview
    isRead := true
    isStarred := m.isStarred
    sentAt := m.sentAt
    readAt := m.readAt.getD now
    folder := m.folder }

/-- `EmailModel.findById(emailId)`. -/
def emailFindById (st : Store) (emailId : String) : Option Message :=
  st.emails.find? (fun m => m.id == emailId)

/-- `DatabaseProviderService.getEmailById(userId, emailId)`: `none` on a
malformed id, a missing message, or an ownership mismatch; otherwise returns
the detail and — only when the message was unread — stamps
`{ isRead: true, readAt: now }` on it via `updateOne({ _id: emailId }, ...)`. -/
def dbGetEmailById (st : Store) (userId emailId : String) (now : Nat) :
    Option EmailDetail × Store :=
  if !isValidObjectId emailId then (none, st)
  else
    match emailFindById st emailId with
    | none => (none, st)
    | some email =>
        if email.accountId ≠ userId then (none, st)
        else
          let st' :=
            if email.isRead then st
            else
              { st with
                emails :=
                  updateFirst (fun m => m.id == emailId)
                    (fun m => { m with isRead := true, readAt := some now })
                    st.emails }
          (some (detailOf email now), st')

/-- `DatabaseProviderService.markAsRead(userId, emailId, isRead)`: a malformed
email id is rejected up front (`return false`); a malformed user id makes the
`updateOne({ _id, accountId })` filter cast throw (caught, `return false`);
otherwise `updateOne` runs with the ownership condition only as a filter and
the call reports `true` regardless of how many documents matched. -/
def dbMarkAsRead (st : Store) (userId emailId : String) (isRead : Bool)
    (now : Nat) : Bool × Store :=
  if !isValidObjectId emailId then (false, st)
  else if !isValidObjectId userId then (false, st)
  else
    (true,
     { st with
       emails :=
         updateFirst (fun m => m.id == emailId && m.accountId == userId)
           (fun m => { m with isRead := isRead,
                              readAt := if isRead then some now else none })
           st.emails })

/-- Outcome of `DatabaseProviderService.toggleStar`: a result or a thrown
`HttpException`. -/
inductive StarOutcome
  | ok (isStarred : Bool)
  | badRequest
  | notFound
deriving DecidableEq, Repr

/-- `DatabaseProviderService.toggleStar(userId, emailId)`: rejects malformed
ids (`400`) and missing/unowned messages (`404`); otherwise computes
`newStarredStatus = !email.isStarred` from the fetched document and writes that
constant via `updateOne({ _id: emailId }, { isStarred: newStarredStatus })`. -/
def dbToggleStar (st : Store) (userId emailId : String) : StarOutcome × Store :=
  if !isValidObjectId emailId then (StarOutcome.badRequest, st)
  else
    match emailFindById st emailId with
    | none => (StarOutcome.notFound, st)
    | some email =>
        if email.accountId ≠ userId then (StarOutcome.notFound, st)
        else
          let newStarredStatus := !email.isStarred
          (StarOutcome.ok newStarredStatus,
           { st with
             emails :=
               updateFirst (fun m => m.id == emailId)
                 (fun m => { m with isStarred := newStarredStatus })
                 st.emails })

/-- `DatabaseProviderService.deleteEmail(userId, emailId)`: two-phase delete —
a message already in `trash` is removed with `deleteOne({ _id: emailId })`,
any other folder is patched to `trash` with `updateOne`; malformed ids,
missing messages and ownership mismatches report `false`. -/
def dbDeleteEmail (st : Store) (userId emailId : String) : Bool × Store :=
  if !isValidObjectId emailId then (false, st)
  else
    match emailFindById st emailId with
    | none => (false, st)
    | some email =>
        if email.accountId ≠ userId then (false, st)
        else if email.folder = "trash" then
          (true,
           { st with emails := deleteFirst (fun m => m.id == emailId) st.emails })
        else
          (true,
           { st with
             emails :=
               updateFirst (fun m => m.id == emailId)
                 (fun m => { m with folder := "trash" }) st.emails })

/-- The query filter built by `DatabaseProviderService.getEmailsByFolder`:
`{ accountId: userId }` plus `isStarred: true` for the pseudo-folder `starred`
and `folder: folder` for every other folder name. -/
def folderQueryFilter (userId folder : String) (m : Message) : Bool :=
  if folder = "starred" then m.accountId == userId && m.isStarred
  else m.accountId == userId && m.folder == folder

/-- Descending insertion by `sentAt`, modelling the JS
`sort((a, b) => b.sentAt - a.sentAt)`. -/
def insertBySentAtDesc (m : Message) : List Message → List Message
  | [] => [m]
  | x :: xs =>
      if x.sentAt < m.sentAt then m :: x :: xs else x :: insertBySentAtDesc m xs

/-- Sort a message list by descending `sentAt`. -/
def sortBySentAtDesc : List Message → List Message
  | [] => []
  | x :: xs => insertBySentAtDesc x (sortBySentAtDesc xs)

/-- The page of documents selected by
`DatabaseProviderService.getEmailsByFolder`: filter, sort descending by
`sentAt`, then `slice(skip, skip + limit)` with `skip = (page - 1) * limit`. -/
def dbFolderDocs (st : Store) (userId folder : String) (page limit : Nat) :
    List Message :=
  let skip := (page - 1) * limit
  ((sortBySentAtDesc (st.emails.filter (folderQueryFilter userId folder))).drop
      skip).take limit

/-- The `IEmailPreview` shape mapped over the selected documents. -/
structure EmailPreview where
  id : String
  fromAddr : String
  toAddr : String
  subject : String
  preview : String
  isRead : Bool
  isStarred : Bool
  sentAt : Nat
  folder : String
  hasAttachments : Bool
deriving DecidableEq, Repr

/-- Projection of a stored message to its preview,
`email => ({ id: email._id.toString(), ... })`. -/
def toPreview (m : Message) : EmailPreview :=
  { id := m.id
    fromAddr := m.fromAddr
    toAddr := m.toAddr
    subject := m.subject
    preview := m.preview
    isRead := m.isRead
    isStarred := m.isStarred
    sentAt := m.sentAt
    folder := m.folder
    hasAttachments := !m.attachments.isEmpty }

/-- The `IEmailListResponse` shape. -/
structure EmailListResponse where
  emails : List EmailPreview
  total : Nat
  page : Nat
  limit : Nat
  totalPages : Nat
deriving DecidableEq, Repr

/-- `DatabaseProviderService.getEmailsByFolder(userId, folder, page, limit)`:
`total` is the full filtered count and `totalPages = ceil(total / limit)`. -/
def dbGetEmailsByFolder (st : Store) (userId folder : String)
    (page limit : Nat) : EmailListResponse :=
  let total := (st.emails.filter (folderQueryFilter userId folder)).length
  { emails := (dbFolderDocs st userId folder page limit).map toPreview
    total := total
    page := page
    limit := limit
    totalPages := (total + limit - 1) / limit }

/-! ## Local send path (`EmailService.sendEmail`, database fallback branch) -/

/-- The `SendEmailDto` fields the local branch consults. -/
structure SendEmailDto where
  toAddr : String
  cc : List String
  bcc : List String
  subject : String
  body : String
  htmlBody : Option String
  inReplyTo : Option String
  attachments : List AttachmentRef
deriving DecidableEq, Repr

/-- The sender's `sent` copy written by the local branch of
`EmailService.sendEmail`: `preview = body.substring(0, 100)`, `isRead: true`,
`folder: 'sent'`, owned by the sender. -/
def sentMessageOf (userId userEmail : String) (data : SendEmailDto)
    (sentId : String) (now : Nat) : Message :=
  { id := sentId
    accountId := userId
    fromAddr := userEmail
    toAddr := data.toAddr
    cc := data.cc
    bcc := data.bcc
    subject := data.subject
    body := data.body
    htmlBody := data.htmlBody
    preview := jsSubstringTo data.body 100
    isRead := true
    isStarred := false
    folder := "sent"
    sentAt := now
    readAt := none
    messageId := none
    inReplyTo := data.inReplyTo
    attachments := data.attachments
    hasAttachments := !data.attachments.isEmpty }

/-- The recipient's `inbox` copy: identical to the sent copy except for the
document id, the owning account, `isRead: false` and `folder: 'inbox'`. -/
def inboxMessageOf (recipientId userEmail : String) (data : SendEmailDto)
    (inboxId : String) (now : Nat) : Message :=
  { sentMessageOf recipientId userEmail data inboxId now with
    isRead := false
    folder := "inbox" }

/-- The database fallback branch of `EmailService.sendEmail` (its effect on
the `emails` and `accounts` collections; attachment linkage is
`linkAttachmentsToEmail`, embedded separately): always `save` a `sent` copy
for the sender, then `findOne({ email: data.to })` and, when a recipient
account exists, `save` an unread `inbox` copy owned by it. -/
def sendEmailLocal (st : Store) (userId userEmail : String)
    (data : SendEmailDto) (sentId inboxId : String) (now : Nat) : Store :=
  let sentEmail := sentMessageOf userId userEmail data sentId now
  let st1 := { st with emails := st.emails ++ [sentEmail] }
  match accountFindByEmail st data.toAddr with
  | some recipient =>
      { st1 with
        emails :=
          st1.emails ++ [inboxMessageOf recipient.id userEmail data inboxId now] }
  | none => st1

/-! ## Reply paths -/

/-- Recipient resolution of `EmailService.replyEmail` (`email.module.ts`),
performed before either the Gmail or the local branch runs: for
`replyAll = false` the original sender alone, dropped when falsy or equal
case-insensitively to the caller's normalized address; for `replyAll = true`
a JS `Set` (insertion-ordered, deduplicating) seeded with the original sender
and extended with the original `To` addresses, each filtered the same way. -/
def replyRecipients (userEmail origFrom origTo : String) (replyAll : Bool) :
    List String :=
  let originalFromEmail := extractEmailAddress origFrom
  let userEmailNormalized := extractEmailAddress userEmail
  if replyAll then
    let originalToEmails :=
      ((jsSplitOnComma origTo).map (fun e => extractEmailAddress (jsTrim e))).filter
        (fun e => e ≠ "")
    let seed : List String :=
      if originalFromEmail ≠ "" &&
          jsToLower originalFromEmail ≠ jsToLower userEmailNormalized then
        [originalFromEmail]
      else []
    originalToEmails.foldl
      (fun acc emailAddr =>
        if emailAddr ≠ "" &&
            jsToLower emailAddr ≠ jsToLower userEmailNormalized &&
            !acc.contains emailAddr then
          acc ++ [emailAddr]
        else acc)
      seed
  else
    if originalFromEmail ≠ "" &&
        jsToLower originalFromEmail ≠ jsToLower userEmailNormalized then
      [originalFromEmail]
    else []

/-- Observable outcome of `EmailService.replyEmail` after recipient
resolution. -/
inductive ReplyOutcome
  | sent (recipients : List String)
  | noValidRecipients
deriving DecidableEq, Repr

/-- `EmailService.replyEmail` after the original email has been fetched: an
empty recipient set throws `'No valid recipients found for reply'` (HTTP 400)
before either send branch; otherwise the reply is dispatched to the resolved
recipients (Gmail branch or local dual-write, both addressed identically). -/
def replyEmailOutcome (userEmail origFrom origTo : String) (replyAll : Bool) :
    ReplyOutcome :=
  let recipients := replyRecipients userEmail origFrom origTo replyAll
  if recipients.isEmpty then ReplyOutcome.noValidRecipients
  else ReplyOutcome.sent recipients

/-- Recipient computation of `GmailProviderService.replyToEmail`
(`gmail-provider.service.ts`, lines 311–335): `to` is always the extracted
original sender; for `replyAll` the `Cc` list is the original `To` and `Cc`
addresses filtered by *exact* inequality with the caller's address.  Returns
`(to, ccList)`. -/
def gmailReplyToAndCc (userEmail origFrom origTo : String)
    (origCc : Option String) (replyAll : Bool) : String × List String :=
  let toFirst := extractEmailAddress origFrom
  if replyAll then
    let toList :=
      (jsSplitOnComma origTo).map (fun e => extractEmailAddress (jsTrim e))
    let ccList :=
      match origCc with
      | some c => (jsSplitOnComma c).map (fun e => extractEmailAddress (jsTrim e))
      | none => []
    let allRecipients := (toList ++ ccList).filter (fun e => e ≠ userEmail)
    (extractEmailAddress origFrom, allRecipients)
  else (toFirst, [])

/-- The full recipient set (To plus Cc) the Gmail provider's reply is
addressed to. -/
def gmailReplyRecipientList (userEmail origFrom origTo : String)
    (origCc : Option String) (replyAll : Bool) : List String :=
  let (toFirst, cc) := gmailReplyToAndCc userEmail origFrom origTo origCc replyAll
  toFirst :: cc

/-! ## Façade read path (`EmailService.getEmailById`) with upstream errors -/

/-- Result of the upstream `gmail.users.messages.get` call: success with a
detail, or a failure whose `error.code` / `error.response.status` may or may
not be determinable. -/
inductive UpstreamResult
  | ok (d : EmailDetail)
  | err (code : Option Nat)
deriving DecidableEq, Repr

/-- Observable outcome of `EmailService.getEmailById`. -/
inductive GetEmailOutcome
  | ok (d : EmailDetail)
  | notFound
  | unauthorized
  | gmailError (status : Nat)
deriving DecidableEq, Repr

/-- Whether an outcome is success-shaped. -/
def GetEmailOutcome.isOk : GetEmailOutcome → Bool
  | .ok _ => true
  | _ => false

/-- The local (database) block of `EmailService.getEmailById`
(`email.service.ts`, lines 308–343): not-found on malformed ids and missing
messages, unauthorized on ownership mismatch, read-marking side effect as in
the local provider (this variant reports `preview: email.preview` as is). -/
def emailServiceLocalGet (st : Store) (userId emailId : String) (now : Nat) :
    GetEmailOutcome × Store :=
  if !isValidObjectId emailId then (GetEmailOutcome.notFound, st)
  else
    match emailFindById st emailId with
    | none => (GetEmailOutcome.notFound, st)
    | some email =>
        if email.accountId ≠ userId then (GetEmailOutcome.unauthorized, st)
        else
          let st' :=
            if email.isRead then st
            else
              { st with
                emails :=
                  updateFirst (fun m => m.id == emailId)
                    (fun m => { m with isRead := true, readAt := some now })
                    st.emails }
          (GetEmailOutcome.ok
            { detailOf email now with preview := email.preview }, st')

/-- `EmailService.getEmailById(userId, emailId)` (`email.service.ts`,
lines 254–354): when a Gmail client exists, an upstream success is returned
directly; an upstream failure computes
`statusCode = error.code || error.response?.status || 500`, throws not-found
on 404, throws a `Gmail API Error` carrying the status (clamped to a valid
HTTP range) when the id is not a valid ObjectId, and otherwise falls through
to the local block.  Without a Gmail client the local block runs directly. -/
def emailServiceGetEmailById (gmailPresent : Bool) (upstream : UpstreamResult)
    (st : Store) (userId emailId : String) (now : Nat) :
    GetEmailOutcome × Store :=
  if gmailPresent then
    match upstream with
    | UpstreamResult.ok d => (GetEmailOutcome.ok d, st)
    | UpstreamResult.err code =>
        let statusCode := code.getD 500
        if statusCode = 404 then (GetEmailOutcome.notFound, st)
        else if !isValidObjectId emailId then
          (GetEmailOutcome.gmailError
            (if 100 ≤ statusCode && statusCode < 600 then statusCode else 500),
           st)
        else emailServiceLocalGet st userId emailId now
  else emailServiceLocalGet st userId emailId now

/-! ## Attachment linkage (`AttachmentService.linkAttachmentsToEmail`) -/

/-- `AttachmentModel.updateOne({ _id: attachmentId }, { emailId })`: a
malformed attachment id makes the Mongoose filter cast reject the promise
(`none`); otherwise the first matching document (if any) is patched. -/
def attachmentUpdateOne (atts : List Attachment) (attachmentId emailId : String) :
    Option (List Attachment) :=
  if isValidObjectId attachmentId then
    some (updateFirst (fun a => a.id == attachmentId)
      (fun a => { a with emailId := some emailId }) atts)
  else none

/-- `AttachmentService.linkAttachmentsToEmail(attachmentIds, emailId)`: a
plain sequential `for ... await` loop with no per-id error handling.  A
rejected `updateOne` propagates out of the loop: the updates already performed
persist (`Bool` reports whether the loop completed), and the remaining ids are
never attempted. -/
def linkAttachmentsToEmail (attachmentIds : List String) (emailId : String)
    (atts : List Attachment) : List Attachment × Bool :=
  match attachmentIds with
  | [] => (atts, true)
  | attachmentId :: rest =>
      match attachmentUpdateOne atts attachmentId emailId with
      | some atts' => linkAttachmentsToEmail rest emailId atts'
      | none => (atts, false)

/-! ## Further helper lemmas (sorting, update composition) -/

theorem mem_insertBySentAtDesc {m a : Message} {l : List Message} :
    a ∈ insertBySentAtDesc m l ↔ a = m ∨ a ∈ l := by
  induction l with
  | nil => simp [insertBySentAtDesc]
  | cons x xs ih =>
    by_cases hx : x.sentAt < m.sentAt
    · simp [insertBySentAtDesc, hx]
    · simp [insertBySentAtDesc, hx, ih]
      tauto

theorem mem_sortBySentAtDesc {a : Message} {l : List Message} :
    a ∈ sortBySentAtDesc l ↔ a ∈ l := by
  induction l with
  | nil => simp [sortBySentAtDesc]
  | cons x xs ih =>
    simp [sortBySentAtDesc, mem_insertBySentAtDesc, ih]

theorem length_insertBySentAtDesc {m : Message} {l : List Message} :
    (insertBySentAtDesc m l).length = l.length + 1 := by
  induction l with
  | nil => rfl
  | cons x xs ih =>
    by_cases hx : x.sentAt < m.sentAt
    · simp [insertBySentAtDesc, hx]
    · simp [insertBySentAtDesc, hx, ih]

theorem length_sortBySentAtDesc {l : List Message} :
    (sortBySentAtDesc l).length = l.length := by
  induction l with
  | nil => rfl
  | cons x xs ih =>
    simp [sortBySentAtDesc, length_insertBySentAtDesc, ih]

theorem updateFirst_updateFirst {α : Type} {p : α → Bool} {f g : α → α}
    {l : List α} (hg : ∀ x, p x = true → p (g x) = true) :
    updateFirst p f (updateFirst p g l) = updateFirst p (fun x => f (g x)) l := by
  induction l with
  | nil => rfl
  | cons x xs ih =>
    by_cases hx : p x
    · simp only [updateFirst, if_pos hx, if_pos (hg x hx)]
    · simp only [updateFirst, if_neg hx]
      rw [ih]

/-! ## Claim C2: provider selection falls back to the always-available local
provider -/

/-- C2: for every account whose stored record carries no Google access
credential (or which does not exist at all), `getProvider` returns the local
database provider — and, being a total function of the store passed in, it
never raises; `DatabaseProviderService.isAvailable` is `true` for every
account; and the selection is recomputed from the store at every call (the
result is exactly determined by the availability check against the current
store, so no cached result can be observed). -/
theorem getProvider_local_fallback (st : Store) (userId : String) :
    (∀ a, accountFindById st userId = some a → a.googleAccessToken = none →
      getProvider st userId = Provider.database)
    ∧ (accountFindById st userId = none →
      getProvider st userId = Provider.database)
    ∧ databaseIsAvailable userId = true
    ∧ (getProvider st userId = Provider.database ↔
        gmailIsAvailable st userId = false)
    ∧ (getProvider st userId = Provider.gmail ↔
        gmailIsAvailable st userId = true) := by
  refine ⟨?_, ?_, rfl, ?_, ?_⟩
  · intro a ha htok
    simp [getProvider, gmailIsAvailable, ha, htok]
  · intro ha
    simp [getProvider, gmailIsAvailable, ha]
  · by_cases h : gmailIsAvailable st userId <;> simp [getProvider, h]
  · by_cases h : gmailIsAvailable st userId <;> simp [getProvider, h]

/-- A local-only account (no Google credential) for the C2 witness. -/
def accountC2 : Account :=
  { id := "bbbbbbbbbbbbbbbbbbbbbbbb"
    email := "alice@example.com"
    googleAccessToken := none
    googleRefreshToken := none }

/-- Store for the C2 witness. -/
def stC2 : Store := { emails := [], accounts := [accountC2], attachmentDocs := [] }

/-- C2 witness: a concrete credential-less account is routed to the database
provider, which reports itself available. -/
theorem getProvider_local_fallback_witness :
    getProvider stC2 "bbbbbbbbbbbbbbbbbbbbbbbb" = Provider.database
    ∧ databaseIsAvailable "bbbbbbbbbbbbbbbbbbbbbbbb" = true :=
  ⟨(getProvider_local_fallback stC2 "bbbbbbbbbbbbbbbbbbbbbbbb").1 accountC2
      (by decide) rfl,
   (getProvider_local_fallback stC2 "bbbbbbbbbbbbbbbbbbbbbbbb").2.2.1⟩

/-! ## Claim C7: outward folder-to-label mapping -/

/-- C7 counterexample: the outward mapper `mapFolderToGmailLabel` sends the
unknown folder name `"spam"` to no label (`none`), not to the inbox label —
refuting the claim that every unknown or unmapped folder name maps outward to
the inbox label. -/
theorem mapFolderToGmailLabel_unknown_cex :
    mapFolderToGmailLabel "spam" = none
    ∧ ¬ mapFolderToGmailLabel "spam" = some "INBOX" := by
  decide

/-- C7 (amended): the outward mapping sends the five named folders to their
upstream labels, and maps `archive` and every unknown or unmapped folder name
alike to no label (no label filter); it is the inward label-to-folder mapping
that defaults every unknown label to `inbox`. -/
theorem mapFolderToGmailLabel_spec :
    mapFolderToGmailLabel "inbox" = some "INBOX"
    ∧ mapFolderToGmailLabel "sent" = some "SENT"
    ∧ mapFolderToGmailLabel "drafts" = some "DRAFT"
    ∧ mapFolderToGmailLabel "trash" = some "TRASH"
    ∧ mapFolderToGmailLabel "starred" = some "STARRED"
    ∧ mapFolderToGmailLabel "archive" = none
    ∧ (∀ folder : String,
        folder ∉ (["inbox", "sent", "drafts", "trash", "starred"] : List String) →
        mapFolderToGmailLabel folder = none)
    ∧ (∀ labelId : String,
        labelId ∉ (["INBOX", "SENT", "DRAFT", "TRASH", "STARRED"] : List String) →
        mapGmailLabelToFolder labelId = "inbox") := by
  refine ⟨by decide, by decide, by decide, by decide, by decide, by decide, ?_, ?_⟩
  · intro folder hf
    simp only [List.mem_cons, List.mem_singleton, not_or] at hf
    obtain ⟨h1, h2, h3, h4, h5, -⟩ := hf
    simp [mapFolderToGmailLabel, h1, h2, h3, h4, h5]
  · intro labelId hl
    simp only [List.mem_cons, List.mem_singleton, not_or] at hl
    obtain ⟨h1, h2, h3, h4, h5, -⟩ := hl
    simp [mapGmailLabelToFolder, h1, h2, h3, h4, h5]

/-- C7 witness: the unknown name `"spam"` maps outward to no label and the
unknown label `"SPAM"` maps inward to `inbox`. -/
theorem mapFolderToGmailLabel_spec_witness :
    mapFolderToGmailLabel "spam" = none ∧ mapGmailLabelToFolder "SPAM" = "inbox" :=
  ⟨mapFolderToGmailLabel_spec.2.2.2.2.2.2.1 "spam" (by decide),
   mapFolderToGmailLabel_spec.2.2.2.2.2.2.2 "SPAM" (by decide)⟩

/-! ## Claim C10: `markAsRead` reports success for any well-formed id -/

/-- C10: for a well-formed caller id, the local provider's `markAsRead`
returns `true` exactly when the email id is a well-formed ObjectId — even
when no message with that id exists or the message belongs to a different
account, in which case the update filter matches zero documents and the store
is left unchanged; only a malformed id yields `false`. -/
theorem markAsRead_zero_match_success (st : Store) (userId emailId : String)
    (isRead : Bool) (now : Nat) (huid : isValidObjectId userId = true) :
    ((dbMarkAsRead st userId emailId isRead now).1 = isValidObjectId emailId)
    ∧ ((∀ m ∈ st.emails, ¬(m.id = emailId ∧ m.accountId = userId)) →
        dbMarkAsRead st userId emailId isRead now = (isValidObjectId emailId, st)) := by
  by_cases hv : isValidObjectId emailId
  · have hnm : ∀ hnomatch : ∀ m ∈ st.emails, ¬(m.id = emailId ∧ m.accountId = userId),
        updateFirst (fun m => m.id == emailId && m.accountId == userId)
          (fun m => { m with isRead := isRead,
                             readAt := if isRead then some now else none })
          st.emails = st.emails := by
      intro hnomatch
      refine updateFirst_of_nomatch fun a ha => ?_
      have := hnomatch a ha
      by_cases h1 : a.id = emailId <;> by_cases h2 : a.accountId = userId <;>
        simp_all
    constructor
    · simp [dbMarkAsRead, hv, huid]
    · intro hnomatch
      simp [dbMarkAsRead, hv, huid, hnm hnomatch]
  · have hv' : isValidObjectId emailId = false := by
      simpa using hv
    constructor
    · simp [dbMarkAsRead, hv']
    · intro _
      simp [dbMarkAsRead, hv']

/-- A message owned by a different account, for the C10 witness. -/
def msgC10 : Message :=
  { id := "eeeeeeeeeeeeeeeeeeeeeeee"
    accountId := "ffffffffffffffffffffffff"
    fromAddr := "x@y.z"
    toAddr := "q@y.z"
    cc := []
    bcc := []
    subject := "s"
    body := "b"
    htmlBody := none
    preview := "b"
    isRead := false
    isStarred := false
    folder := "inbox"
    sentAt := 1
    readAt := none
    messageId := none
    inReplyTo := none
    attachments := []
    hasAttachments := false }

/-- Store for the C10 witness. -/
def stC10 : Store := { emails := [msgC10], accounts := [], attachmentDocs := [] }

/-- C10 witness: with a well-formed but absent email id the call still
reports `true` and leaves the store unchanged; a malformed id reports
`false`. -/
theorem markAsRead_zero_match_success_witness :
    dbMarkAsRead stC10 "bbbbbbbbbbbbbbbbbbbbbbbb" "aaaaaaaaaaaaaaaaaaaaaaaa" true 7 =
      (true, stC10)
    ∧ (dbMarkAsRead stC10 "bbbbbbbbbbbbbbbbbbbbbbbb" "zz" true 7).1 = false :=
  ⟨(markAsRead_zero_match_success stC10 "bbbbbbbbbbbbbbbbbbbbbbbb"
      "aaaaaaaaaaaaaaaaaaaaaaaa" true 7 (by decide)).2 (by decide),
   (markAsRead_zero_match_success stC10 "bbbbbbbbbbbbbbbbbbbbbbbb" "zz" true 7
      (by decide)).1⟩

/-! ## Claim C9: attachment linking is fail-fast, not best-effort -/

/-- An unlinked attachment with a well-formed id, for C9. -/
def attC9 : Attachment :=
  { id := "cccccccccccccccccccccccc"
    filename := "f.txt"
    mimeType := "text/plain"
    size := 3
    emailId := none }

/-- C9 counterexample: with attachment ids `["zz", "cccc…"]`, the failure on
the malformed first id aborts the loop, so the valid second id is never
linked (its `emailId` stays `none`) — although linking it alone succeeds.
This refutes the claim that a failure on one id does not prevent the linking
of the remaining ids from being attempted. -/
theorem linkAttachments_abort_cex :
    linkAttachmentsToEmail ["zz", "cccccccccccccccccccccccc"] "m0" [attC9] =
      ([attC9], false)
    ∧ (linkAttachmentsToEmail ["cccccccccccccccccccccccc"] "m0" [attC9]).1 =
        [{ attC9 with emailId := some "m0" }] := by
  decide

/-- Helper for C9: a run whose ids are all well-formed completes. -/
theorem linkAttachments_all_valid (emailId : String) :
    ∀ (ids : List String) (atts : List Attachment),
      (∀ i ∈ ids, isValidObjectId i = true) →
      (linkAttachmentsToEmail ids emailId atts).2 = true := by
  intro ids
  induction ids with
  | nil => intro atts _; rfl
  | cons i is ih =>
    intro atts h
    have hi := h i (by simp)
    simp only [linkAttachmentsToEmail, attachmentUpdateOne, hi, if_pos]
    exact ih _ fun j hj => h j (by simp [hj])

/-- C9 (amended): `linkAttachmentsToEmail` is sequential and fail-fast — a
failure while linking one id aborts the loop, leaving the ids after it
unattempted (the store as of the failure is kept); only a run in which every
id succeeds completes the whole list. -/
theorem linkAttachmentsToEmail_failfast (bad : String) (rest : List String)
    (emailId : String) (atts : List Attachment)
    (hbad : isValidObjectId bad = false) :
    linkAttachmentsToEmail (bad :: rest) emailId atts = (atts, false)
    ∧ (∀ ids : List String, (∀ i ∈ ids, isValidObjectId i = true) →
        (linkAttachmentsToEmail ids emailId atts).2 = true) := by
  constructor
  · simp [linkAttachmentsToEmail, attachmentUpdateOne, hbad]
  · intro ids h
    exact linkAttachments_all_valid emailId ids atts h

/-- C9 witness: a malformed first id aborts immediately on the empty store. -/
theorem linkAttachmentsToEmail_failfast_witness :
    linkAttachmentsToEmail ["zz"] "m1" [] = ([], false)
    ∧ (linkAttachmentsToEmail [] "m1" []).2 = true :=
  ⟨(linkAttachmentsToEmail_failfast "zz" [] "m1" [] (by decide)).1,
   (linkAttachmentsToEmail_failfast "zz" [] "m1" [] (by decide)).2 [] (by simp)⟩

/-! ## Claim C3: reply recipient resolution -/

/-- C3 counterexample: in `GmailProviderService.replyToEmail` with
`replyAll = false` and an original sender equal to the caller's own address,
the computed recipient set is `{x@example.com}` — the provider addresses the
original sender unconditionally — and it is not empty, so no
"no valid recipients" failure can be raised on this path.  This refutes the
claim that the recipient set is empty (and the call fails) whenever sender
and caller coincide, for every provider. -/
theorem replyToEmail_self_recipient_cex :
    gmailReplyRecipientList "x@example.com" "x@example.com" "" none false =
      ["x@example.com"]
    ∧ gmailReplyRecipientList "x@example.com" "x@example.com" "" none false ≠ [] := by
  decide

/-- C3 (amended): the façade `EmailService.replyEmail` resolves recipients as
the claim states — for `replyAll = false` exactly the original sender when
that address differs case-insensitively from the caller's, empty when they
coincide — and any reply whose recipient set resolves empty fails with the
"no valid recipients" error before either provider branch runs; the Gmail
provider's own `replyToEmail`, however, always addresses the original sender
without excluding self and performs no empty-recipient check. -/
theorem replyEmail_recipient_resolution (userEmail origFrom origTo : String)
    (hne : extractEmailAddress origFrom ≠ "") :
    (jsToLower (extractEmailAddress origFrom) ≠
        jsToLower (extractEmailAddress userEmail) →
      replyRecipients userEmail origFrom origTo false =
        [extractEmailAddress origFrom]
      ∧ replyEmailOutcome userEmail origFrom origTo false =
          ReplyOutcome.sent [extractEmailAddress origFrom])
    ∧ (jsToLower (extractEmailAddress origFrom) =
        jsToLower (extractEmailAddress userEmail) →
      replyRecipients userEmail origFrom origTo false = []
      ∧ replyEmailOutcome userEmail origFrom origTo false =
          ReplyOutcome.noValidRecipients)
    ∧ (∀ replyAll : Bool,
        replyRecipients userEmail origFrom origTo replyAll = [] →
        replyEmailOutcome userEmail origFrom origTo replyAll =
          ReplyOutcome.noValidRecipients) := by
  refine ⟨?_, ?_, ?_⟩
  · intro hd
    have hr : replyRecipients userEmail origFrom origTo false =
        [extractEmailAddress origFrom] := by
      simp [replyRecipients, hne, hd]
    exact ⟨hr, by simp [replyEmailOutcome, hr]⟩
  · intro hd
    have hr : replyRecipients userEmail origFrom origTo false = [] := by
      simp [replyRecipients, hne, hd]
    exact ⟨hr, by simp [replyEmailOutcome, hr]⟩
  · intro replyAll hempty
    simp [replyEmailOutcome, hempty]

/-- C3 witness: a reply to a distinct sender targets exactly that sender (with
case-insensitive comparison), and a self-reply (differing only in case) fails
with the no-valid-recipients error. -/
theorem replyEmail_recipient_resolution_witness :
    replyRecipients "me@a.com" "X@B.com" "" false = ["X@B.com"]
    ∧ replyEmailOutcome "x@example.com" "X@Example.com" "" false =
        ReplyOutcome.noValidRecipients :=
  ⟨((replyEmail_recipient_resolution "me@a.com" "X@B.com" "" (by decide)).1
      (by decide)).1,
   ((replyEmail_recipient_resolution "x@example.com" "X@Example.com" ""
      (by decide)).2.1 (by decide)).2⟩

/-! ## Claim C8: upstream failures on the remote read path -/

/-- A locally stored, already-read message whose id is a well-formed
ObjectId, for C8. -/
def msgC8 : Message :=
  { id := "dddddddddddddddddddddddd"
    accountId := "u1"
    fromAddr := "a@b.c"
    toAddr := "u@b.c"
    cc := []
    bcc := []
    subject := "s"
    body := "b"
    htmlBody := none
    preview := "p"
    isRead := true
    isStarred := false
    folder := "inbox"
    sentAt := 10
    readAt := some 11
    messageId := none
    inReplyTo := none
    attachments := []
    hasAttachments := false }

/-- Store for C8. -/
def stC8 : Store := { emails := [msgC8], accounts := [], attachmentDocs := [] }

/-- C8 counterexample: an upstream failure with status 500 on a message id
that is a well-formed local ObjectId is not surfaced as a provider error —
`EmailService.getEmailById` falls through to the local store and returns a
success-shaped result, refuting the claim that every non-404 upstream failure
is surfaced as a generic provider error. -/
theorem getEmailById_swallows_upstream_cex :
    ((emailServiceGetEmailById true (UpstreamResult.err (some 500)) stC8 "u1"
        "dddddddddddddddddddddddd" 20).1).isOk = true
    ∧ (emailServiceGetEmailById true (UpstreamResult.err (some 500)) stC8 "u1"
        "dddddddddddddddddddddddd" 20).1 ≠ GetEmailOutcome.gmailError 500 := by
  decide

/-- C8 (amended): on the remote read path an upstream 404 is surfaced as a
not-found error; every other upstream failure is surfaced as a generic
provider error carrying the upstream status (clamped to the valid HTTP range,
500 when not determinable) only when the requested id is not a well-formed
local ObjectId — when the id is a well-formed ObjectId, the non-404 failure
is swallowed and the local store is consulted instead, which can yield a
success-shaped result. -/
theorem getEmailById_upstream_error_spec (st : Store) (userId emailId : String)
    (code : Option Nat) (now : Nat) :
    (code.getD 500 = 404 →
      emailServiceGetEmailById true (UpstreamResult.err code) st userId emailId
        now = (GetEmailOutcome.notFound, st))
    ∧ (code.getD 500 ≠ 404 → isValidObjectId emailId = false →
      emailServiceGetEmailById true (UpstreamResult.err code) st userId emailId
        now =
        (GetEmailOutcome.gmailError
          (if 100 ≤ code.getD 500 && code.getD 500 < 600 then code.getD 500
           else 500),
         st))
    ∧ (code.getD 500 ≠ 404 → isValidObjectId emailId = true →
      emailServiceGetEmailById true (UpstreamResult.err code) st userId emailId
        now = emailServiceLocalGet st userId emailId now)
    ∧ (∀ d, emailServiceGetEmailById true (UpstreamResult.ok d) st userId
        emailId now = (GetEmailOutcome.ok d, st)) := by
  refine ⟨?_, ?_, ?_, ?_⟩
  · intro h404
    simp [emailServiceGetEmailById, h404]
  · intro h404 hv
    simp [emailServiceGetEmailById, h404, hv]
  · intro h404 hv
    simp [emailServiceGetEmailById, h404, hv]
  · intro d
    simp [emailServiceGetEmailById]

/-- C8 witness: a 404 maps to not-found; a 503 with a non-ObjectId id maps to
a provider error carrying 503; a 503 with a well-formed ObjectId id falls
through to the local block. -/
theorem getEmailById_upstream_error_spec_witness :
    emailServiceGetEmailById true (UpstreamResult.err (some 404)) stC8 "u1" "zz"
      5 = (GetEmailOutcome.notFound, stC8)
    ∧ emailServiceGetEmailById true (UpstreamResult.err (some 503)) stC8 "u1"
        "zz" 5 = (GetEmailOutcome.gmailError 503, stC8)
    ∧ emailServiceGetEmailById true (UpstreamResult.err (some 503)) stC8 "u1"
        "dddddddddddddddddddddddd" 5 =
        emailServiceLocalGet stC8 "u1" "dddddddddddddddddddddddd" 5 :=
  ⟨(getEmailById_upstream_error_spec stC8 "u1" "zz" (some 404) 5).1 (by decide),
   (getEmailById_upstream_error_spec stC8 "u1" "zz" (some 503) 5).2.1 (by decide)
     (by decide),
   (getEmailById_upstream_error_spec stC8 "u1" "dddddddddddddddddddddddd"
      (some 503) 5).2.2.1 (by decide) (by decide)⟩

/-! ## Claim C1: local send path dual-write -/

/-- C1: the local send path writes exactly one `sent` message owned by the
sender; when the recipient address matches a known local account `B` the only
other write is one unread `inbox` message owned by `B` with the same subject
and body as the sent copy; when no account matches, the sent copy is the only
write. -/
theorem sendEmailLocal_dual_write (st : Store) (userId userEmail : String)
    (data : SendEmailDto) (sentId inboxId : String) (now : Nat) :
    (((sendEmailLocal st userId userEmail data sentId inboxId now).emails.drop
        st.emails.length).filter
          (fun m => m.folder == "sent" && m.accountId == userId)).length = 1
    ∧ (∀ B, accountFindByEmail st data.toAddr = some B →
        (sendEmailLocal st userId userEmail data sentId inboxId now).emails.drop
          st.emails.length =
          [sentMessageOf userId userEmail data sentId now,
           inboxMessageOf B.id userEmail data inboxId now])
    ∧ (accountFindByEmail st data.toAddr = none →
        (sendEmailLocal st userId userEmail data sentId inboxId now).emails.drop
          st.emails.length = [sentMessageOf userId userEmail data sentId now])
    ∧ (sentMessageOf userId userEmail data sentId now).folder = "sent"
    ∧ (sentMessageOf userId userEmail data sentId now).accountId = userId
    ∧ (∀ B : String,
        (inboxMessageOf B userEmail data inboxId now).folder = "inbox"
        ∧ (inboxMessageOf B userEmail data inboxId now).isRead = false
        ∧ (inboxMessageOf B userEmail data inboxId now).accountId = B
        ∧ (inboxMessageOf B userEmail data inboxId now).subject =
            (sentMessageOf userId userEmail data sentId now).subject
        ∧ (inboxMessageOf B userEmail data inboxId now).body =
            (sentMessageOf userId userEmail data sentId now).body) := by
  have hdrop :
      ∀ B, accountFindByEmail st data.toAddr = some B →
        (sendEmailLocal st userId userEmail data sentId inboxId now).emails.drop
          st.emails.length =
          [sentMessageOf userId userEmail data sentId now,
           inboxMessageOf B.id userEmail data inboxId now] := by
    intro B hB
    simp only [sendEmailLocal, hB]
    rw [List.append_assoc, List.drop_left]
    rfl
  have hdropN :
      accountFindByEmail st data.toAddr = none →
        (sendEmailLocal st userId userEmail data sentId inboxId now).emails.drop
          st.emails.length = [sentMessageOf userId userEmail data sentId now] := by
    intro hB
    simp only [sendEmailLocal, hB]
    rw [List.drop_left]
  refine ⟨?_, hdrop, hdropN, rfl, rfl, fun B => ⟨rfl, rfl, rfl, rfl, rfl⟩⟩
  cases hB : accountFindByEmail st data.toAddr with
  | some B =>
      rw [hdrop B hB]
      simp [sentMessageOf, inboxMessageOf]
  | none =>
      rw [hdropN hB]
      simp [sentMessageOf]

/-- The recipient account for the C1 witness. -/
def accountC1 : Account :=
  { id := "0123456789ab0123456789ab"
    email := "bob@example.com"
    googleAccessToken := none
    googleRefreshToken := none }

/-- Store for the C1 witness. -/
def stC1 : Store := { emails := [], accounts := [accountC1], attachmentDocs := [] }

/-- Send request addressed to the known account `bob@example.com`. -/
def dtoC1 : SendEmailDto :=
  { toAddr := "bob@example.com"
    cc := []
    bcc := []
    subject := "Hi"
    body := "Hello"
    htmlBody := none
    inReplyTo := none
    attachments := [] }

/-- The same request addressed to an unknown recipient. -/
def dtoC1b : SendEmailDto := { dtoC1 with toAddr := "nobody@example.com" }

/-- C1 witness: sending to a known account writes the sent copy plus the
recipient's inbox copy; sending to an unknown address writes only the sent
copy. -/
theorem sendEmailLocal_dual_write_witness :
    (sendEmailLocal stC1 "u1" "me@x.com" dtoC1 "s1" "i1" 3).emails.drop
        stC1.emails.length =
      [sentMessageOf "u1" "me@x.com" dtoC1 "s1" 3,
       inboxMessageOf accountC1.id "me@x.com" dtoC1 "i1" 3]
    ∧ (sendEmailLocal stC1 "u1" "me@x.com" dtoC1b "s2" "i2" 3).emails.drop
        stC1.emails.length = [sentMessageOf "u1" "me@x.com" dtoC1b "s2" 3] :=
  ⟨(sendEmailLocal_dual_write stC1 "u1" "me@x.com" dtoC1 "s1" "i1" 3).2.1
      accountC1 (by decide),
   (sendEmailLocal_dual_write stC1 "u1" "me@x.com" dtoC1b "s2" "i2" 3).2.2.1
      (by decide)⟩

/-! ## Claim C4: read-marking side effect and idempotent re-read -/

/-- C4: `getEmailById` by the owning account on an unread local message
stamps `{ isRead: true, readAt: t1 }` on the stored document; a second
`getEmailById` on the now-read message performs no further write — the store
is returned unchanged and the detail it reports carries the `readAt` stamp of
the first call. -/
theorem getEmailById_read_marking (st : Store) (userId emailId : String)
    (m : Message) (t1 t2 : Nat)
    (hv : isValidObjectId emailId = true)
    (hfind : emailFindById st emailId = some m)
    (hown : m.accountId = userId)
    (hunread : m.isRead = false) :
    dbGetEmailById st userId emailId t1 =
      (some (detailOf m t1),
       { st with
         emails :=
           updateFirst (fun mm => mm.id == emailId)
             (fun mm => { mm with isRead := true, readAt := some t1 })
             st.emails })
    ∧ emailFindById (dbGetEmailById st userId emailId t1).2 emailId =
        some { m with isRead := true, readAt := some t1 }
    ∧ dbGetEmailById (dbGetEmailById st userId emailId t1).2 userId emailId t2 =
        (some (detailOf { m with isRead := true, readAt := some t1 } t2),
         (dbGetEmailById st userId emailId t1).2)
    ∧ (detailOf { m with isRead := true, readAt := some t1 } t2).readAt = t1 := by
  have hpm : (m.id == emailId) = true := by
    simpa using List.find?_some hfind
  have h1 : dbGetEmailById st userId emailId t1 =
      (some (detailOf m t1),
       { st with
         emails :=
           updateFirst (fun mm => mm.id == emailId)
             (fun mm => { mm with isRead := true, readAt := some t1 })
             st.emails }) := by
    simp [dbGetEmailById, hv, hfind, hown, hunread]
  have h2 : emailFindById (dbGetEmailById st userId emailId t1).2 emailId =
      some { m with isRead := true, readAt := some t1 } := by
    rw [h1]
    exact find?_updateFirst hfind (by simpa using hpm)
  refine ⟨h1, h2, ?_, rfl⟩
  generalize (dbGetEmailById st userId emailId t1).2 = st1 at h2 ⊢
  simp [dbGetEmailById, hv, h2, hown]

/-- The unread message for the C4 witness. -/
def msgC4 : Message :=
  { id := "aaaaaaaaaaaaaaaaaaaaaaaa"
    accountId := "u1"
    fromAddr := "x@y.z"
    toAddr := "u@y.z"
    cc := []
    bcc := []
    subject := "s"
    body := "b"
    htmlBody := none
    preview := "b"
    isRead := false
    isStarred := false
    folder := "inbox"
    sentAt := 2
    readAt := none
    messageId := none
    inReplyTo := none
    attachments := []
    hasAttachments := false }

/-- Store for the C4 witness. -/
def stC4 : Store := { emails := [msgC4], accounts := [], attachmentDocs := [] }

/-- C4 witness: on a concrete unread message the first read stamps
`readAt = 5` and the second read (at time 9) leaves the store unchanged and
still reports `readAt = 5`. -/
theorem getEmailById_read_marking_witness :
    emailFindById (dbGetEmailById stC4 "u1" "aaaaaaaaaaaaaaaaaaaaaaaa" 5).2
        "aaaaaaaaaaaaaaaaaaaaaaaa" =
      some { msgC4 with isRead := true, readAt := some 5 }
    ∧ dbGetEmailById (dbGetEmailById stC4 "u1" "aaaaaaaaaaaaaaaaaaaaaaaa" 5).2
        "u1" "aaaaaaaaaaaaaaaaaaaaaaaa" 9 =
        (some (detailOf { msgC4 with isRead := true, readAt := some 5 } 9),
         (dbGetEmailById stC4 "u1" "aaaaaaaaaaaaaaaaaaaaaaaa" 5).2)
    ∧ (detailOf { msgC4 with isRead := true, readAt := some 5 } 9).readAt = 5 :=
  ⟨(getEmailById_read_marking stC4 "u1" "aaaaaaaaaaaaaaaaaaaaaaaa" msgC4 5 9
      (by decide) (by decide) rfl rfl).2.1,
   (getEmailById_read_marking stC4 "u1" "aaaaaaaaaaaaaaaaaaaaaaaa" msgC4 5 9
      (by decide) (by decide) rfl rfl).2.2.1,
   (getEmailById_read_marking stC4 "u1" "aaaaaaaaaaaaaaaaaaaaaaaa" msgC4 5 9
      (by decide) (by decide) rfl rfl).2.2.2⟩

/-! ## Claim C5: two-phase delete with frame preservation -/

/-- C5: deleting an owned message whose folder is not `trash` reports success
and changes only its `folder` field to `trash` (the stored document equals
`{ m with folder := "trash" }`, every other field untouched); deleting the
now-trashed message again reports success and removes the record, after which
lookups and `getEmailById` yield not-found. -/
theorem deleteEmail_two_phase (st : Store) (userId emailId : String)
    (m : Message) (t : Nat)
    (hv : isValidObjectId emailId = true)
    (hfilter : st.emails.filter (fun mm => mm.id == emailId) = [m])
    (hown : m.accountId = userId)
    (hnt : m.folder ≠ "trash") :
    (dbDeleteEmail st userId emailId).1 = true
    ∧ (dbDeleteEmail st userId emailId).2.emails.filter
        (fun mm => mm.id == emailId) = [{ m with folder := "trash" }]
    ∧ (dbDeleteEmail (dbDeleteEmail st userId emailId).2 userId emailId).1 = true
    ∧ emailFindById
        (dbDeleteEmail (dbDeleteEmail st userId emailId).2 userId emailId).2
        emailId = none
    ∧ dbGetEmailById
        (dbDeleteEmail (dbDeleteEmail st userId emailId).2 userId emailId).2
        userId emailId t =
        (none,
         (dbDeleteEmail (dbDeleteEmail st userId emailId).2 userId emailId).2) := by
  have hfind : emailFindById st emailId = some m := find?_of_filter_cons hfilter
  have hpm : (m.id == emailId) = true := by
    simpa using List.find?_some hfind
  have h1 : dbDeleteEmail st userId emailId =
      (true,
       { st with
         emails :=
           updateFirst (fun mm => mm.id == emailId)
             (fun mm => { mm with folder := "trash" }) st.emails }) := by
    simp [dbDeleteEmail, hv, hfind, hown, hnt]
  have h2 : (dbDeleteEmail st userId emailId).2.emails.filter
      (fun mm => mm.id == emailId) = [{ m with folder := "trash" }] := by
    rw [h1]
    exact filter_updateFirst_singleton hfilter hpm
  have hfind1 : emailFindById (dbDeleteEmail st userId emailId).2 emailId =
      some { m with folder := "trash" } := find?_of_filter_cons h2
  have h3 : dbDeleteEmail (dbDeleteEmail st userId emailId).2 userId emailId =
      (true,
       { (dbDeleteEmail st userId emailId).2 with
         emails :=
           deleteFirst (fun mm => mm.id == emailId)
             (dbDeleteEmail st userId emailId).2.emails }) := by
    generalize (dbDeleteEmail st userId emailId).2 = st1 at hfind1 ⊢
    simp [dbDeleteEmail, hv, hfind1, hown]
  have h4 : emailFindById
      (dbDeleteEmail (dbDeleteEmail st userId emailId).2 userId emailId).2
      emailId = none := by
    rw [h3]
    refine find?_eq_none_of_filter_nil ?_
    show (deleteFirst _ _).filter _ = []
    rw [filter_deleteFirst, h2]
    rfl
  have h5 : dbGetEmailById
      (dbDeleteEmail (dbDeleteEmail st userId emailId).2 userId emailId).2
      userId emailId t =
      (none,
       (dbDeleteEmail (dbDeleteEmail st userId emailId).2 userId emailId).2) := by
    generalize
      (dbDeleteEmail (dbDeleteEmail st userId emailId).2 userId emailId).2 = st2
      at h4 ⊢
    simp [dbGetEmailById, hv, h4]
  exact ⟨by rw [h1], h2, by rw [h3], h4, h5⟩

/-- The message for the C5 witness: owned, in `inbox`. -/
def msgC5 : Message :=
  { id := "abcdefabcdefabcdefabcdef"
    accountId := "u1"
    fromAddr := "x@y.z"
    toAddr := "u@y.z"
    cc := ["c@y.z"]
    bcc := []
    subject := "keep"
    body := "body"
    htmlBody := some "<b>body</b>"
    preview := "body"
    isRead := true
    isStarred := true
    folder := "inbox"
    sentAt := 4
    readAt := some 6
    messageId := some "mid"
    inReplyTo := none
    attachments := []
    hasAttachments := false }

/-- Store for the C5 witness. -/
def stC5 : Store := { emails := [msgC5], accounts := [], attachmentDocs := [] }

/-- C5 witness: on a concrete store the first delete trashes the message
preserving all other fields, and the second delete removes it for good. -/
theorem deleteEmail_two_phase_witness :
    (dbDeleteEmail stC5 "u1" "abcdefabcdefabcdefabcdef").2.emails.filter
        (fun mm => mm.id == "abcdefabcdefabcdefabcdef") =
      [{ msgC5 with folder := "trash" }]
    ∧ emailFindById
        (dbDeleteEmail (dbDeleteEmail stC5 "u1" "abcdefabcdefabcdefabcdef").2
          "u1" "abcdefabcdefabcdefabcdef").2 "abcdefabcdefabcdefabcdef" = none :=
  ⟨(deleteEmail_two_phase stC5 "u1" "abcdefabcdefabcdefabcdef" msgC5 0
      (by decide) (by decide) rfl (by decide)).2.1,
   (deleteEmail_two_phase stC5 "u1" "abcdefabcdefabcdefabcdef" msgC5 0
      (by decide) (by decide) rfl (by decide)).2.2.2.1⟩

/-! ## Claim C6: `toggleStar` involution and the `starred` flag filter -/

/-- C6: toggling the star of an owned message twice restores the store to its
original contents (and the two calls report the flipped and the original flag
respectively); the `starred` folder query is a pure flag filter,
`accountId == userId && isStarred`, unaffected by the message's actual
`folder` value; and for the first page with a sufficient limit a message
appears among the selected documents exactly when it is owned and starred,
its preview then appearing in the `getEmailsByFolder` response. -/
theorem toggleStar_involution_and_starred_filter (st : Store)
    (userId emailId : String) (m : Message) (limit : Nat)
    (hv : isValidObjectId emailId = true)
    (hfind : emailFindById st emailId = some m)
    (hown : m.accountId = userId) :
    (dbToggleStar st userId emailId).1 = StarOutcome.ok (!m.isStarred)
    ∧ (dbToggleStar (dbToggleStar st userId emailId).2 userId emailId).1 =
        StarOutcome.ok m.isStarred
    ∧ (dbToggleStar (dbToggleStar st userId emailId).2 userId emailId).2.emails =
        st.emails
    ∧ (∀ mm : Message, folderQueryFilter userId "starred" mm =
        (mm.accountId == userId && mm.isStarred))
    ∧ (∀ mm : Message, ∀ f : String,
        folderQueryFilter userId "starred" { mm with folder := f } =
          folderQueryFilter userId "starred" mm)
    ∧ ((st.emails.filter (folderQueryFilter userId "starred")).length ≤ limit →
        ∀ mm : Message,
          (mm ∈ dbFolderDocs st userId "starred" 1 limit ↔
            mm ∈ st.emails ∧ (mm.accountId == userId && mm.isStarred) = true)
          ∧ (mm ∈ dbFolderDocs st userId "starred" 1 limit →
              toPreview mm ∈
                (dbGetEmailsByFolder st userId "starred" 1 limit).emails)) := by
  have hpm : (m.id == emailId) = true := by
    simpa using List.find?_some hfind
  have h1 : dbToggleStar st userId emailId =
      (StarOutcome.ok (!m.isStarred),
       { st with
         emails :=
           updateFirst (fun mm => mm.id == emailId)
             (fun mm => { mm with isStarred := !m.isStarred }) st.emails }) := by
    simp [dbToggleStar, hv, hfind, hown]
  have hfind1 : emailFindById (dbToggleStar st userId emailId).2 emailId =
      some { m with isStarred := !m.isStarred } := by
    rw [h1]
    exact find?_updateFirst hfind hpm
  have h2 : dbToggleStar (dbToggleStar st userId emailId).2 userId emailId =
      (StarOutcome.ok m.isStarred,
       { (dbToggleStar st userId emailId).2 with
         emails :=
           updateFirst (fun mm => mm.id == emailId)
             (fun mm => { mm with isStarred := m.isStarred })
             (dbToggleStar st userId emailId).2.emails }) := by
    generalize (dbToggleStar st userId emailId).2 = st1 at hfind1 ⊢
    simp [dbToggleStar, hv, hfind1, hown]
  have h3 :
      (dbToggleStar (dbToggleStar st userId emailId).2 userId emailId).2.emails =
        st.emails := by
    rw [h2]
    show updateFirst _ _ (dbToggleStar st userId emailId).2.emails = st.emails
    rw [h1]
    show updateFirst _ _ (updateFirst _ _ st.emails) = st.emails
    have hg : ∀ x : Message, (x.id == emailId) = true →
        (({ x with isStarred := !m.isStarred } : Message).id == emailId) = true :=
      fun x hx => hx
    rw [updateFirst_updateFirst hg]
    exact updateFirst_eq_self hfind rfl
  refine ⟨by rw [h1], by rw [h2], h3, fun mm => rfl, fun mm f => rfl, ?_⟩
  intro hlimit mm
  have hdocs : dbFolderDocs st userId "starred" 1 limit =
      sortBySentAtDesc (st.emails.filter (folderQueryFilter userId "starred")) := by
    simp only [dbFolderDocs]
    have hz : (1 - 1) * limit = 0 := by omega
    rw [hz, List.drop_zero]
    exact List.take_of_length_le (by rw [length_sortBySentAtDesc]; exact hlimit)
  constructor
  · rw [hdocs, mem_sortBySentAtDesc, List.mem_filter]
    simp [folderQueryFilter]
  · intro hmem
    exact List.mem_map_of_mem toPreview hmem

/-- The message for the C6 witness: starred, but living in `archive`. -/
def msgC6 : Message :=
  { id := "123412341234123412341234"
    accountId := "u1"
    fromAddr := "x@y.z"
    toAddr := "u@y.z"
    cc := []
    bcc := []
    subject := "s"
    body := "b"
    htmlBody := none
    preview := "b"
    isRead := true
    isStarred := true
    folder := "archive"
    sentAt := 8
    readAt := none
    messageId := none
    inReplyTo := none
    attachments := []
    hasAttachments := false }

/-- Store for the C6 witness. -/
def stC6 : Store := { emails := [msgC6], accounts := [], attachmentDocs := [] }

/-- C6 witness: on a concrete starred message in `archive`, two toggles
restore the store, and the message is selected by the `starred` query despite
its `archive` folder. -/
theorem toggleStar_involution_witness :
    (dbToggleStar stC6 "u1" "123412341234123412341234").1 =
      StarOutcome.ok false
    ∧ (dbToggleStar (dbToggleStar stC6 "u1" "123412341234123412341234").2 "u1"
        "123412341234123412341234").2.emails = stC6.emails
    ∧ (msgC6 ∈ dbFolderDocs stC6 "u1" "starred" 1 50 ↔
        msgC6 ∈ stC6.emails ∧ (msgC6.accountId == "u1" && msgC6.isStarred) = true) :=
  ⟨(toggleStar_involution_and_starred_filter stC6 "u1" "123412341234123412341234"
      msgC6 50 (by decide) (by decide) rfl).1,
   (toggleStar_involution_and_starred_filter stC6 "u1" "123412341234123412341234"
      msgC6 50 (by decide) (by decide) rfl).2.2.1,
   ((toggleStar_involution_and_starred_filter stC6 "u1" "123412341234123412341234"
      msgC6 50 (by decide) (by decide) rfl).2.2.2.2.2 (by decide) msgC6).1⟩

end AwadEmail
